import Mathlib

/-!
Shallow embedding of the Neurokernel coordination core (`neurokernel/base.py`,
the canonical variant per the spec) and proofs about its claimed properties.

Conventions of the embedding:
* Python module identifiers (zmq identities produced by `uid()`) are `String`s;
  connectivity object ids are `Nat`s.
* Python exceptions are made explicit: every operation of the source that can
  raise is modelled as an `Except Err` computation.  A data-socket receive that
  would block forever (the stream of incoming frames is exhausted while the
  receive loop still waits for sources) is modelled by the distinguished
  outcome `Err.blocked`: the Python call never returns in that situation.
* Python 2 `dict.keys()` returns a fresh list, so the `send_ids` / `recv_ids`
  working copies taken in `BaseModule._sync` are local values; mutating them
  does not touch `conn_dict`.  The embedding mirrors this by passing the key
  lists functionally.
* A Python `dict` assignment `d[k] = v` is `dictSet` (replace the binding of an
  existing key in place, otherwise append).
-/

deriving instance DecidableEq for Except

namespace Neurokernel

/-- Module identifiers: opaque byte strings (zmq socket identities). -/
abbrev ModuleId := String

/-- Opaque application payload carried inside a data frame (`msgpack` body).
The core never inspects it beyond distinguishing it from Python `None`,
which is modelled by wrapping payloads in `Option`. -/
abbrev Data := String

/-- A data frame on the wire between a module and the broker: the pair
`(module ID, payload)` produced by `msgpack.packb`; `none` is Python `None`. -/
abbrev Frame := ModuleId × Option Data

/-- Exceptional outcomes of the embedded operations.  `valueError`, `keyError`,
`attributeError` and `assertionError` are the Python exceptions raised by the
source; `blocked` marks a socket receive that never returns (see module
docstring). -/
inductive Err where
  | valueError (msg : String)
  | keyError
  | attributeError
  | assertionError
  | blocked
  deriving DecidableEq, Repr

/-- The `net` attribute of a module (`base.py` lines 86-98).  The source value
`'in'` is spelled `inp` because `in` is a Lean keyword; all other constructor
names match the source strings. -/
inductive NetMode where
  | none
  | ctrl
  | inp
  | out
  | full
  deriving DecidableEq, Repr

/-- Python `dict` assignment `d[k] = v` on an association list: replace the
value of an existing key in place, otherwise append the new binding. -/
def dictSet {α β : Type} [DecidableEq α] : List (α × β) → α → β → List (α × β)
  | [], k, v => [(k, v)]
  | (k', v') :: rest, k, v =>
      if k' = k then (k, v) :: rest else (k', v') :: dictSet rest k v

/-- A `scipy.sparse.lil_matrix`: a shape plus the stored entries
(`BaseConnectivity._make_matrix`, line 660).  Entry values are modelled as
integers (the source stores the `conn` parameter as `int`); the `dtype`
bookkeeping of scipy is not observable through any claimed property. -/
structure LilMatrix where
  rows : Nat
  cols : Nat
  entries : List (Nat × Nat × Int)
  deriving DecidableEq, Repr

/-- `scipy` matrix transpose `.T` (used in `BaseConnectivity.transpose`,
line 728): swap the shape and every coordinate. -/
def LilMatrix.transpose (m : LilMatrix) : LilMatrix :=
  { rows := m.cols, cols := m.rows,
    entries := m.entries.map (fun e => (e.2.1, e.1, e.2.2)) }

/-- The direction component of a connectivity key: `'+'` or `'-'`. -/
inductive DirSign where
  | plus
  | minus
  deriving DecidableEq, Repr

/-- Direction flip performed by `BaseConnectivity.transpose` (lines 720-723).
The `else` branch of the source (`ValueError('invalid direction in key')`) is
unreachable here because keys carry the direction structurally. -/
def DirSign.flip : DirSign → DirSign
  | .plus => .minus
  | .minus => .plus

/-- A key of `BaseConnectivity._data`.  The source encodes the triple
`(syn, dir, param)` as the slash-joined string `str(syn)+'/'+dir+'/'+param`
(`_make_key`, line 653); the encoding is a bijection onto such triples, so the
embedding keeps the structured form. -/
abbrev ConnKey := Nat × DirSign × String

/-- Key with the direction component reversed (`transpose`, lines 717-727). -/
def flipConnKey (k : ConnKey) : ConnKey := (k.1, k.2.1.flip, k.2.2)

/-- `BaseConnectivity` (base.py lines 503-740): id, dimensions, the `_data`
dict of parameter matrices and the `_keys_by_dir` lists (one field per
direction). -/
structure BaseConnectivity where
  id : Nat
  N_src : Nat
  N_dest : Nat
  N_mult : Nat
  data : List (ConnKey × LilMatrix)
  keys_plus : List ConnKey
  keys_minus : List ConnKey
  deriving DecidableEq, Repr

/-- `BaseConnectivity.__init__` (lines 551-582).  The three `assert`
statements on nonzero dimensions become `assertionError` outcomes; the id is
the caller-supplied `uid()` value. -/
def BaseConnectivity.init (id N_src N_dest N_mult : Nat) :
    Except Err BaseConnectivity :=
  if N_src = 0 then .error .assertionError
  else if N_dest = 0 then .error .assertionError
  else if N_mult = 0 then .error .assertionError
  else
    .ok { id := id, N_src := N_src, N_dest := N_dest, N_mult := N_mult,
          data := [((0, .plus, "conn"),
                      { rows := N_src, cols := N_dest, entries := [] }),
                   ((0, .minus, "conn"),
                      { rows := N_src, cols := N_dest, entries := [] })],
          keys_plus := [(0, .plus, "conn")],
          keys_minus := [(0, .minus, "conn")] }

/-- The `shape` property (line 584): `(N_src, N_dest)`. -/
def BaseConnectivity.shape (c : BaseConnectivity) : Nat × Nat :=
  (c.N_src, c.N_dest)

/-- `BaseConnectivity.transpose` (lines 707-730), embedded exactly as written:
the fresh object is constructed as `BaseConnectivity(self.N_dest, self.N_dest)`
(line 712), its `_keys_by_dir` lists are cleared, and every `_data` entry is
re-inserted under the direction-flipped key with the matrix transposed.  The
fresh object's `uid()` is opaque and never observed by any claimed property;
it is fixed to `0` here. -/
def BaseConnectivity.transpose (c : BaseConnectivity) :
    Except Err BaseConnectivity := do
  let c0 ← BaseConnectivity.init 0 c.N_dest c.N_dest 1
  let start := { c0 with keys_plus := [], keys_minus := [] }
  .ok (c.data.foldl
        (fun acc kv =>
          let nk := flipConnKey kv.1
          let acc := { acc with data := dictSet acc.data nk kv.2.transpose }
          match nk.2.1 with
          | .plus => { acc with keys_plus := acc.keys_plus ++ [nk] }
          | .minus => { acc with keys_minus := acc.keys_minus ++ [nk] })
        start)

/-- The state of a `BaseModule` instance (base.py lines 37-141): identity,
`net` mode, the two ports, the inbound buffer `_in_data` (pairs of source ID
and non-`None` payload), the outbound buffer `_out_data` (pairs of destination
ID and payload), and the two inner dictionaries of `conn_dict` keyed by peer
ID. -/
structure BaseModule where
  id : ModuleId
  net : NetMode
  port_data : Nat
  port_ctrl : Nat
  in_data : List (ModuleId × Data)
  out_data : List (ModuleId × Option Data)
  conn_in : List (ModuleId × BaseConnectivity)
  conn_out : List (ModuleId × BaseConnectivity)
  deriving DecidableEq, Repr

/-- The `in_ids` property (lines 127-133): `conn_dict['in'].keys()`.  Python 2
`keys()` returns a fresh list in the dictionary's order. -/
def BaseModule.in_ids (m : BaseModule) : List ModuleId :=
  m.conn_in.map Prod.fst

/-- The `out_ids` property (lines 135-141): `conn_dict['out'].keys()`. -/
def BaseModule.out_ids (m : BaseModule) : List ModuleId :=
  m.conn_out.map Prod.fst

/-- An arbitrary Python value passed as the `conn` argument of `add_conn`:
either an actual `BaseConnectivity` instance or anything else (the
`isinstance` check only distinguishes these two cases). -/
inductive PyVal where
  | conn (c : BaseConnectivity)
  | notConn
  deriving DecidableEq, Repr

/-- `BaseModule.add_conn` (lines 143-161).  A non-`BaseConnectivity` argument
raises `ValueError('invalid connectivity object')`; a `conn_type` other than
the two keys of `conn_dict` makes the subscript `self.conn_dict[conn_type]`
raise `KeyError`; otherwise the object is stored under the peer ID in the
selected direction's dictionary. -/
def BaseModule.add_conn (m : BaseModule) (conn : PyVal) (conn_type : String)
    (peer : ModuleId) : Except Err BaseModule :=
  match conn with
  | .notConn => .error (.valueError ("invalid connectivity object"))
  | .conn c =>
      if conn_type = "in" then
        .ok { m with conn_in := dictSet m.conn_in peer c }
      else if conn_type = "out" then
        .ok { m with conn_out := dictSet m.conn_out peer c }
      else .error .keyError

/-- The send loop of `_sync` (lines 268-273): for each `(out_id, data)` in the
outbound buffer, the frame is pushed onto the socket and then
`send_ids.remove(out_id)` runs; a missing element makes `remove` raise
`ValueError`.  The first component collects the frames that reached the socket
(they are sent before the `remove` can raise); the second is the surviving
`send_ids` list or the exception. -/
def sendLoop :
    List (ModuleId × Option Data) → List ModuleId →
      List Frame × Except Err (List ModuleId)
  | [], send_ids => ([], .ok send_ids)
  | (out_id, d) :: rest, send_ids =>
      if out_id ∈ send_ids then
        let r := sendLoop rest (send_ids.erase out_id)
        ((out_id, d) :: r.1, r.2)
      else
        ([(out_id, d)], .error (.valueError ("list.remove(x): x not in list")))

/-- The send phase of `_sync` (lines 266-282): run the send loop over the
outbound buffer, then send a `(out_id, None)` frame to every destination left
in `send_ids` (lines 277-279). -/
def BaseModule.sendPhase (m : BaseModule) : List Frame × Except Err Unit :=
  let r := sendLoop m.out_data m.out_ids
  match r.2 with
  | .ok remaining =>
      (r.1 ++ remaining.map (fun i => (i, (Option.none : Option Data))), .ok ())
  | .error e => (r.1, .error e)

/-- The receive loop of `_sync` (lines 287-298): while `recv_ids` is
non-empty, block-receive one frame, run `recv_ids.remove(in_id)` (raising
`ValueError` when the source is not among the awaited ones), and append
`(in_id, data)` to `_in_data` unless the payload is `None`.  When the incoming
stream is exhausted while sources are still awaited, the Python call blocks
forever (`Err.blocked`).  Returns the final `_in_data` and the unread rest of
the stream. -/
def recvLoop :
    List Frame → List ModuleId → List (ModuleId × Data) →
      Except Err (List (ModuleId × Data) × List Frame)
  | fs, [], acc => .ok (acc, fs)
  | [], _ :: _, _ => .error .blocked
  | (in_id, d) :: fs, ids@(_ :: _), acc =>
      if in_id ∈ ids then
        recvLoop fs (ids.erase in_id)
          (acc ++ (d.map (fun v => (in_id, v))).toList)
      else .error (.valueError ("list.remove(x): x not in list"))

/-- `BaseModule._sync` (lines 243-298).  The argument `incoming` is the stream
of frames the broker delivers to this module's data socket during the step.
The result pairs the frames this module pushed onto its socket (an observable
effect that survives a later exception) with either the exception or the
updated module state plus the unread part of `incoming`. -/
def BaseModule.sync (m : BaseModule) (incoming : List Frame) :
    List Frame × Except Err (BaseModule × List Frame) :=
  if m.net = NetMode.none ∨ m.net = NetMode.ctrl then ([], .ok (m, incoming))
  else
    let s :=
      if m.net = NetMode.out ∨ m.net = NetMode.full then m.sendPhase
      else ([], .ok ())
    match s.2 with
    | .error e => (s.1, .error e)
    | .ok _ =>
        if m.net = NetMode.inp ∨ m.net = NetMode.full then
          match recvLoop incoming m.in_ids [] with
          | .ok r => (s.1, .ok ({ m with in_data := r.1 }, r.2))
          | .error e => (s.1, .error e)
        else (s.1, .ok (m, incoming))

/-- Modelled from the spec: the `RoutingTable` class lives in
`routing_table.py`, which is not part of the sources at hand; spec section 4.5
requires `coords()` to return the current edge set as an ordered sequence,
stable between calls, and section 4.3 installs `awaited` as a copy of it.  The
model therefore carries the edge sequence directly. -/
structure RoutingTable where
  coords : List (ModuleId × ModuleId)
  deriving DecidableEq, Repr

/-- A multipart message the broker's ROUTER socket emits:
`[out_id, packb((in_id, data))]` (lines 440-441). -/
abbrev Emission := ModuleId × (ModuleId × Option Data)

/-- The state of a `Broker` instance (lines 362-379): ports, the routing
table, the `data_to_route` buffer of accepted `(in_id, out_id, data)` triples,
and `recv_coords_list`, the mutable copy of `routing_table.coords`. -/
structure Broker where
  port_data : Nat
  port_ctrl : Nat
  routing_table : RoutingTable
  data_to_route : List (ModuleId × ModuleId × Option Data)
  recv_coords_list : List (ModuleId × ModuleId)
  deriving DecidableEq, Repr

/-- `Broker.__init__` (lines 362-379).  Equal ports raise `ValueError`; with
the default `routing_table=None` the final line
`self.recv_coords_list = routing_table.coords` dereferences `None` and raises
`AttributeError`, so construction fails. -/
def Broker.init (port_data port_ctrl : Nat)
    (routing_table : Option RoutingTable) : Except Err Broker :=
  if port_data = port_ctrl then
    .error (.valueError ("data and control ports must differ"))
  else
    match routing_table with
    | Option.none => .error .attributeError
    | some rt =>
        .ok { port_data := port_data, port_ctrl := port_ctrl,
              routing_table := rt, data_to_route := [],
              recv_coords_list := rt.coords }

/-- The broker state right after a successful construction. -/
def Broker.start (port_data port_ctrl : Nat) (rt : RoutingTable) : Broker :=
  { port_data := port_data, port_ctrl := port_ctrl, routing_table := rt,
    data_to_route := [], recv_coords_list := rt.coords }

/-- First half of `Broker._data_handler` (lines 420-428): if the decoded
`(in_id, out_id)` pair is awaited, append the triple to `data_to_route` and
remove the pair from `recv_coords_list`; otherwise leave the state alone. -/
def Broker.acceptFrame (b : Broker) (in_id out_id : ModuleId)
    (data : Option Data) : Broker :=
  if (in_id, out_id) ∈ b.recv_coords_list then
    { b with data_to_route := b.data_to_route ++ [(in_id, out_id, data)],
             recv_coords_list := b.recv_coords_list.erase (in_id, out_id) }
  else b

/-- Second half of `Broker._data_handler` (lines 430-447): once
`recv_coords_list` is empty, emit every buffered triple in insertion order as
`[out_id, packb((in_id, data))]`, then reset the buffer and re-install
`routing_table.coords`. -/
def Broker.flushRound (b : Broker) : Broker × List Emission :=
  if b.recv_coords_list = [] then
    ({ b with data_to_route := [],
              recv_coords_list := b.routing_table.coords },
     b.data_to_route.map (fun x => (x.2.1, (x.1, x.2.2))))
  else (b, [])

/-- `Broker._data_handler` (lines 404-447) on a well-formed two-part message
`[in_id, packb((out_id, data))]` (the `len(msg) != 2` guard of line 416 filters
malformed multiparts before this point). -/
def Broker.dataHandler (b : Broker) (in_id out_id : ModuleId)
    (data : Option Data) : Broker × List Emission :=
  (b.acceptFrame in_id out_id data).flushRound

/-- Feed a sequence of well-formed data frames through the handler,
discarding emissions (used to describe the reachable broker states). -/
def Broker.runFrames (b : Broker) :
    List (ModuleId × ModuleId × Option Data) → Broker
  | [] => b
  | f :: fs => ((b.dataHandler f.1 f.2.1 f.2.2).1).runFrames fs

/-- Modelled from the spec: `RoutingTable.__setitem__` is part of the missing
`routing_table.py`; spec section 4.5 defines `set((src,dst), value)` with a
truthy value as edge insertion (membership, multiplicity 1) and `coords()` as
a stable ordered sequence.  Inserting an existing edge is a no-op; a new edge
is appended. -/
def rtSet (edges : List (ModuleId × ModuleId)) (e : ModuleId × ModuleId) :
    List (ModuleId × ModuleId) :=
  if e ∈ edges then edges else edges ++ [e]

/-- Promotion applied to the sending side of a new edge
(lines 825-828 and 845-848): `none` becomes `out`, `in` becomes `full`,
everything else is untouched. -/
def promoteTx : NetMode → NetMode
  | NetMode.none => NetMode.out
  | NetMode.inp => NetMode.full
  | n => n

/-- Promotion applied to the receiving side of a new edge
(lines 830-833 and 840-843): `none` becomes `in`, `out` becomes `full`,
everything else is untouched. -/
def promoteRx : NetMode → NetMode
  | NetMode.none => NetMode.inp
  | NetMode.out => NetMode.full
  | n => n

/-- The slice of a `BaseManager`'s state that `connect` touches, together with
the two module objects passed to the call: the routing-table edge sequence,
the states of the (distinct) source and destination module objects, and the
key sets of `mod_dict` and `conn_dict`. -/
structure ConnectState where
  rt : List (ModuleId × ModuleId)
  src : BaseModule
  dst : BaseModule
  mod_ids : List ModuleId
  conn_ids : List Nat
  deriving DecidableEq, Repr

/-- The registration prologue of `connect` (lines 811-818): add the two
modules and the connectivity object to the manager's dictionaries when their
ids are not yet present. -/
def registerAll (s : ConnectState) (conn : BaseConnectivity) : ConnectState :=
  let m1 := if s.src.id ∈ s.mod_ids then s.mod_ids else s.mod_ids ++ [s.src.id]
  let m2 := if s.dst.id ∈ m1 then m1 else m1 ++ [s.dst.id]
  let c1 := if conn.id ∈ s.conn_ids then s.conn_ids
            else s.conn_ids ++ [conn.id]
  { s with mod_ids := m2, conn_ids := c1 }

/-- `BaseManager.connect` (lines 780-863).  The `isinstance` checks of lines
806-809 are satisfied by construction here because the inputs are typed; the
`net` assignments go through the validating setter with values that are always
legal.  Each branch updates the routing table, promotes the two `net` modes
and wires the connectivity objects through `add_conn`, in source order;
`conn.T` is `BaseConnectivity.transpose` and is evaluated at each occurrence
(twice in the `'='` branch, lines 859 and 861). -/
def connect (s : ConnectState) (conn : BaseConnectivity) (dir : String) :
    Except Err ConnectState := do
  let s := registerAll s conn
  if dir = "+" then
    let rt := rtSet s.rt (s.src.id, s.dst.id)
    let src ← BaseModule.add_conn { s.src with net := promoteTx s.src.net }
                (.conn conn) "out" s.dst.id
    let t ← conn.transpose
    let dst ← BaseModule.add_conn { s.dst with net := promoteRx s.dst.net }
                (.conn t) "in" s.src.id
    .ok { s with rt := rt, src := src, dst := dst }
  else if dir = "-" then
    let rt := rtSet s.rt (s.dst.id, s.src.id)
    let src ← BaseModule.add_conn { s.src with net := promoteRx s.src.net }
                (.conn conn) "in" s.dst.id
    let t ← conn.transpose
    let dst ← BaseModule.add_conn { s.dst with net := promoteTx s.dst.net }
                (.conn t) "out" s.src.id
    .ok { s with rt := rt, src := src, dst := dst }
  else if dir = "=" then
    let rt := rtSet (rtSet s.rt (s.src.id, s.dst.id)) (s.dst.id, s.src.id)
    let src ← BaseModule.add_conn { s.src with net := NetMode.full }
                (.conn conn) "out" s.dst.id
    let t ← conn.transpose
    let dst ← BaseModule.add_conn { s.dst with net := NetMode.full }
                (.conn t) "in" s.src.id
    let src ← BaseModule.add_conn src (.conn conn) "in" s.dst.id
    let t2 ← conn.transpose
    let dst ← BaseModule.add_conn dst (.conn t2) "out" s.src.id
    .ok { s with rt := rt, src := src, dst := dst }
  else .error (.valueError ("unrecognized connectivity direction"))

/-- A finite sequence of `connect` calls against the same pair of modules,
threading the manager/module state. -/
def connectSeq (s : ConnectState) :
    List (BaseConnectivity × String) → Except Err ConnectState
  | [] => .ok s
  | (c, d) :: rest => (connect s c d).bind (fun s' => connectSeq s' rest)

/-- Iterated Python `list.remove`: erase the elements of `xs` from `l` one
after the other (the effect of the send loop on its `send_ids` working copy
when every removal succeeds). -/
def removeAll (l : List ModuleId) (xs : List ModuleId) : List ModuleId :=
  xs.foldl List.erase l

/-- The order on `net` modes claimed by the spec: the reflexive-transitive
closure of the arrows `none -> in | out | ctrl`, `in -> full`,
`out -> full`. -/
def claimedNetLe : NetMode → NetMode → Bool
  | NetMode.none, _ => true
  | NetMode.inp, NetMode.inp => true
  | NetMode.inp, NetMode.full => true
  | NetMode.out, NetMode.out => true
  | NetMode.out, NetMode.full => true
  | NetMode.ctrl, NetMode.ctrl => true
  | NetMode.full, NetMode.full => true
  | _, _ => false

/-- The claimed order extended with `ctrl -> full`, i.e. the lattice in which
`full` is the top element; this is the order the code actually respects. -/
def extNetLe : NetMode → NetMode → Bool
  | NetMode.none, _ => true
  | _, NetMode.full => true
  | NetMode.inp, NetMode.inp => true
  | NetMode.out, NetMode.out => true
  | NetMode.ctrl, NetMode.ctrl => true
  | _, _ => false

/-- A concrete valid connectivity object: the successful result of
`BaseConnectivity(1, 1)` with uid `1` (used as input of witness checks). -/
def conn0 : BaseConnectivity :=
  { id := 1, N_src := 1, N_dest := 1, N_mult := 1,
    data := [((0, .plus, "conn"), { rows := 1, cols := 1, entries := [] }),
             ((0, .minus, "conn"), { rows := 1, cols := 1, entries := [] })],
    keys_plus := [(0, .plus, "conn")],
    keys_minus := [(0, .minus, "conn")] }

/-- A concrete module state builder for witness checks. -/
def modFix (id : ModuleId) (net : NetMode)
    (ins outs : List (ModuleId × BaseConnectivity))
    (ob : List (ModuleId × Option Data)) : BaseModule :=
  { id := id, net := net, port_data := 5000, port_ctrl := 5001,
    in_data := [], out_data := ob, conn_in := ins, conn_out := outs }

/-- The transpose of `conn0` as `BaseConnectivity.transpose` computes it: the
same content under a fresh (abstracted) uid. -/
def conn0T : BaseConnectivity := { conn0 with id := 0 }

/-- A concrete two-module manager state for witness checks: empty routing
table, modules `"s"` and `"d"` with the given `net` modes, nothing
registered. -/
def stFix (nsrc ndst : NetMode) : ConnectState :=
  { rt := [], src := modFix ("s") nsrc [] [] [], dst := modFix ("d") ndst [] [] [],
    mod_ids := [], conn_ids := [] }

/-- The state `connect (stFix none none) conn0 '='` computes to. -/
def stFixDone : ConnectState :=
  { rt := [("s", "d"), ("d", "s")],
    src := modFix ("s") NetMode.full [("d", conn0)] [("d", conn0)] [],
    dst := modFix ("d") NetMode.full [("s", conn0T)] [("s", conn0T)] [],
    mod_ids := ["s", "d"], conn_ids := [1] }

end Neurokernel

namespace Neurokernel

theorem removeAll_nil (l : List ModuleId) : removeAll l [] = l := rfl

theorem removeAll_cons (l : List ModuleId) (d : ModuleId) (tl : List ModuleId) :
    removeAll l (d :: tl) = removeAll (l.erase d) tl := rfl

theorem sendLoop_ok_of_nodup (buf : List (ModuleId × Option Data)) :
    ∀ ids, (buf.map Prod.fst).Nodup → (∀ d ∈ buf.map Prod.fst, d ∈ ids) →
      sendLoop buf ids = (buf, .ok (removeAll ids (buf.map Prod.fst))) := by
  induction buf with
  | nil => intro ids _ _; simp [sendLoop, removeAll]
  | cons hd tl ih =>
      intro ids hnd hsub
      obtain ⟨d, p⟩ := hd
      have hmem : d ∈ ids := hsub d (by simp)
      have hnd' : (tl.map Prod.fst).Nodup := (List.nodup_cons.mp (by simpa using hnd)).2
      have hdn : d ∉ tl.map Prod.fst := (List.nodup_cons.mp (by simpa using hnd)).1
      have hsub' : ∀ x ∈ tl.map Prod.fst, x ∈ ids.erase d := by
        intro x hx
        have hxd : x ≠ d := fun h => hdn (h ▸ hx)
        exact (List.mem_erase_of_ne hxd).mpr (hsub x (by simp [hx]))
      simp [sendLoop, hmem, ih (ids.erase d) hnd' hsub', removeAll_cons]

theorem removeAll_length (xs : List ModuleId) :
    ∀ ids, xs.Nodup → (∀ x ∈ xs, x ∈ ids) →
      (removeAll ids xs).length = ids.length - xs.length := by
  induction xs with
  | nil => intro ids _ _; simp [removeAll]
  | cons d tl ih =>
      intro ids hnd hsub
      have hmem : d ∈ ids := hsub d (by simp)
      have hsub' : ∀ x ∈ tl, x ∈ ids.erase d := by
        intro x hx
        have hxd : x ≠ d := fun h => (List.nodup_cons.mp hnd).1 (h ▸ hx)
        exact (List.mem_erase_of_ne hxd).mpr (hsub x (by simp [hx]))
      have h1 := ih (ids.erase d) (List.nodup_cons.mp hnd).2 hsub'
      rw [removeAll_cons, h1, List.length_erase_of_mem hmem]
      simp only [List.length_cons]
      omega

theorem removeAll_mem (xs : List ModuleId) :
    ∀ ids, ids.Nodup → ∀ i, (i ∈ removeAll ids xs ↔ i ∈ ids ∧ i ∉ xs) := by
  induction xs with
  | nil => intro ids _ i; simp [removeAll]
  | cons d tl ih =>
      intro ids hnd i
      rw [removeAll_cons, ih (ids.erase d) (hnd.erase d) i,
        hnd.mem_erase_iff]
      simp only [List.mem_cons]
      tauto

theorem removeAll_nodup (xs : List ModuleId) :
    ∀ ids : List ModuleId, ids.Nodup → (removeAll ids xs).Nodup := by
  induction xs with
  | nil => intro ids h; simpa [removeAll] using h
  | cons d tl ih => intro ids h; rw [removeAll_cons]; exact ih _ (h.erase d)

theorem sync_fst (m : BaseModule) (incoming : List Frame)
    (h : m.net = NetMode.out ∨ m.net = NetMode.full) :
    (m.sync incoming).1 = m.sendPhase.1 := by
  rcases hsp : m.sendPhase with ⟨sent, r⟩
  cases hm : m.net <;> simp [hm] at h <;>
    cases r <;>
      cases hrl : recvLoop incoming m.in_ids [] <;>
        simp [BaseModule.sync, hm, hsp, hrl]

theorem sendLoop_error_eq (buf : List (ModuleId × Option Data)) :
    ∀ ids e, (sendLoop buf ids).2 = .error e →
      e = .valueError ("list.remove(x): x not in list") := by
  induction buf with
  | nil => intro ids e h; simp [sendLoop] at h
  | cons hd tl ih =>
      intro ids e h
      obtain ⟨d, p⟩ := hd
      by_cases hm : d ∈ ids
      · simp only [sendLoop, if_pos hm] at h
        exact ih _ _ h
      · simp only [sendLoop, if_neg hm, Except.error.injEq] at h
        exact h.symm

theorem sendLoop_ok_count (buf : List (ModuleId × Option Data)) :
    ∀ ids r, (sendLoop buf ids).2 = .ok r →
      ∀ a, (buf.map Prod.fst).count a ≤ ids.count a := by
  induction buf with
  | nil => intro ids r _ a; simp
  | cons hd tl ih =>
      intro ids r h a
      obtain ⟨d, p⟩ := hd
      by_cases hm : d ∈ ids
      · simp only [sendLoop, if_pos hm] at h
        have h2 := ih (ids.erase d) r h a
        by_cases had : a = d
        · subst had
          have hpos : 0 < ids.count a := List.count_pos_iff.mpr hm
          have hce : (ids.erase a).count a = ids.count a - 1 :=
            List.count_erase_self a ids
          simp only [List.map_cons, List.count_cons_self]
          omega
        · have hce : (ids.erase d).count a = ids.count a :=
            List.count_erase_of_ne had ids
          simp only [List.map_cons, List.count_cons_of_ne had]
          omega
      · simp [sendLoop, hm] at h

theorem sync_snd_of_sendPhase_error (m : BaseModule) (incoming : List Frame)
    (e : Err) (h : m.net = NetMode.out ∨ m.net = NetMode.full)
    (he : m.sendPhase.2 = .error e) :
    (m.sync incoming).2 = .error e := by
  rcases hsp : m.sendPhase with ⟨sent, r⟩
  rw [hsp] at he
  simp only at he
  cases hm : m.net <;> simp [hm] at h <;>
    simp [BaseModule.sync, hm, hsp, he]

/-- Claim C2: for a module with `net` in `{out, full}` whose outbound buffer
has pairwise distinct destinations, all of them in `out_ids`, `_sync` pushes
exactly `|out_ids|` frames onto the data socket: each buffered
`(dstID, payload)` verbatim (in buffer order), followed by one `(dstID, None)`
frame for every destination of `out_ids` that is absent from the buffer.
`out_ids` lists the keys of a Python dictionary and is therefore
duplicate-free, which is the `hkeys` hypothesis. -/
theorem sync_sends_one_frame_per_out_id (m : BaseModule)
    (incoming : List Frame)
    (hnet : m.net = NetMode.out ∨ m.net = NetMode.full)
    (hkeys : m.out_ids.Nodup)
    (hnodup : (m.out_data.map Prod.fst).Nodup)
    (hsub : ∀ d ∈ m.out_data.map Prod.fst, d ∈ m.out_ids) :
    (m.sync incoming).1 =
      m.out_data ++
        (removeAll m.out_ids (m.out_data.map Prod.fst)).map
          (fun i => (i, (Option.none : Option Data))) ∧
    (m.sync incoming).1.length = m.out_ids.length ∧
    (∀ i, i ∈ removeAll m.out_ids (m.out_data.map Prod.fst) ↔
        (i ∈ m.out_ids ∧ i ∉ m.out_data.map Prod.fst)) ∧
    (removeAll m.out_ids (m.out_data.map Prod.fst)).Nodup := by
  have hsl := sendLoop_ok_of_nodup m.out_data m.out_ids hnodup hsub
  have h1 : (m.sync incoming).1 =
      m.out_data ++
        (removeAll m.out_ids (m.out_data.map Prod.fst)).map
          (fun i => (i, (Option.none : Option Data))) := by
    rw [sync_fst m incoming hnet]
    simp [BaseModule.sendPhase, hsl]
  refine ⟨h1, ?_, removeAll_mem _ _ hkeys, removeAll_nodup _ _ hkeys⟩
  have hlen := removeAll_length (m.out_data.map Prod.fst) m.out_ids hnodup hsub
  have hle : (m.out_data.map Prod.fst).length ≤ m.out_ids.length :=
    (hnodup.subperm hsub).length_le
  have hm2 : (List.map Prod.fst m.out_data).length = m.out_data.length := by
    simp
  rw [h1, List.length_append, List.length_map, hlen]
  rw [hm2] at hle
  omega

theorem sync_sends_one_frame_per_out_id_check :
    ((modFix ("m") NetMode.out [] [("a", conn0), ("b", conn0)]
        [("b", some ("p"))]).sync []).1 =
      [("b", some ("p")), ("a", (Option.none : Option Data))] ∧
    ((modFix ("m") NetMode.out [] [("a", conn0), ("b", conn0)]
        [("b", some ("p"))]).sync []).1.length = 2 := by
  have h := sync_sends_one_frame_per_out_id
    (modFix ("m") NetMode.out [] [("a", conn0), ("b", conn0)] [("b", some ("p"))])
    [] (Or.inl rfl) (by decide) (by decide) (by decide)
  exact ⟨by rw [h.1]; decide, h.2.1⟩

/-- Claim C7: when the outbound buffer holds two entries with the same
destination, the second `send_ids.remove` call of the send loop raises
`ValueError` (the spec's ProtocolViolation), so `_sync` terminates the step
with that exception instead of returning normally; the duplicate frame does
reach the socket just before the failure (frames are pushed on line 271 before
the `remove` of line 272 runs). -/
theorem sync_duplicate_destination_fails (m : BaseModule)
    (incoming : List Frame)
    (hnet : m.net = NetMode.out ∨ m.net = NetMode.full)
    (hkeys : m.out_ids.Nodup)
    (hdup : ¬ (m.out_data.map Prod.fst).Nodup) :
    (m.sync incoming).2 =
      .error (.valueError ("list.remove(x): x not in list")) := by
  cases hsl : (sendLoop m.out_data m.out_ids).2 with
  | ok r =>
      exact absurd (List.nodup_iff_count_le_one.mpr (fun a => by
        have h1 := sendLoop_ok_count m.out_data m.out_ids r hsl a
        have h2 := List.nodup_iff_count_le_one.mp hkeys a
        omega)) hdup
  | error e =>
      have he := sendLoop_error_eq m.out_data m.out_ids e hsl
      subst he
      refine sync_snd_of_sendPhase_error m incoming _ hnet ?_
      rcases hq : sendLoop m.out_data m.out_ids with ⟨fs, r2⟩
      rw [hq] at hsl
      simp only at hsl
      simp [BaseModule.sendPhase, hq, hsl]

theorem sync_duplicate_destination_fails_check :
    ((modFix ("m") NetMode.out [] [("a", conn0)]
        [("a", some ("p")), ("a", some ("q"))]).sync []).2 =
      .error (.valueError ("list.remove(x): x not in list")) :=
  sync_duplicate_destination_fails
    (modFix ("m") NetMode.out [] [("a", conn0)]
      [("a", some ("p")), ("a", some ("q"))])
    [] (Or.inl rfl) (by decide) (by decide)

/-- Claim C9: whenever `_sync` returns normally, the only attribute it has
changed is the inbound buffer `_in_data`: the identity, `net` mode, both
ports, both connectivity dictionaries (hence `in_ids` and `out_ids`) and the
outbound buffer are those of the pre-call state, because the send and receive
loops mutate fresh working copies of the key lists (`Python 2 keys()` returns
a new list). -/
theorem sync_touches_only_in_data (m : BaseModule) (incoming : List Frame)
    (m' : BaseModule) (rest : List Frame)
    (h : (m.sync incoming).2 = .ok (m', rest)) :
    m'.id = m.id ∧ m'.net = m.net ∧ m'.port_data = m.port_data ∧
    m'.port_ctrl = m.port_ctrl ∧ m'.conn_in = m.conn_in ∧
    m'.conn_out = m.conn_out ∧ m'.out_data = m.out_data := by
  rcases hsp : m.sendPhase with ⟨sent, r⟩
  cases hm : m.net <;> cases r <;>
    cases hrl : recvLoop incoming m.in_ids [] <;>
      simp [BaseModule.sync, hm, hsp, hrl] at h <;>
      (try (obtain ⟨h1, h2⟩ := h; subst h1; simp [hm]))

theorem sync_touches_only_in_data_check :
    ((modFix ("m") NetMode.inp [("a", conn0)] [] []).sync
        [("a", some ("x"))]).2 =
      .ok ({ modFix ("m") NetMode.inp [("a", conn0)] [] [] with
              in_data := [("a", "x")] }, []) ∧
    ({ modFix ("m") NetMode.inp [("a", conn0)] [] [] with
        in_data := [("a", "x")] } : BaseModule).net =
      (modFix ("m") NetMode.inp [("a", conn0)] [] []).net := by
  refine ⟨by decide, ?_⟩
  exact (sync_touches_only_in_data
    (modFix ("m") NetMode.inp [("a", conn0)] [] []) [("a", some ("x"))]
    _ [] (by decide)).2.1

theorem recvLoop_perm (fs : List Frame) :
    ∀ (ids : List ModuleId) (acc : List (ModuleId × Data)),
      (fs.map Prod.fst).Perm ids →
      recvLoop fs ids acc =
        .ok (acc ++ fs.filterMap (fun f => f.2.map (fun v => (f.1, v))),
             []) := by
  induction fs with
  | nil =>
      intro ids acc hperm
      have hnil : ids = [] := hperm.symm.eq_nil
      subst hnil
      simp [recvLoop]
  | cons f tl ih =>
      intro ids acc hperm
      obtain ⟨i, d⟩ := f
      have hi : i ∈ ids := hperm.subset (by simp)
      cases ids with
      | nil => simp at hi
      | cons j js =>
          have hperm' : (tl.map Prod.fst).Perm ((j :: js).erase i) := by
            have h1 : (j :: js).Perm (i :: (j :: js).erase i) :=
              List.perm_cons_erase hi
            have h0 : (i :: tl.map Prod.fst).Perm (j :: js) := by
              simpa using hperm
            have h2 : (i :: tl.map Prod.fst).Perm (i :: (j :: js).erase i) :=
              h0.trans h1
            exact h2.cons_inv
          rw [recvLoop, if_pos hi, ih _ _ hperm']
          cases d <;> simp [List.filterMap_cons]

theorem filterMap_fst_sublist (l : List Frame) :
    ((l.filterMap (fun f => f.2.map (fun v => (f.1, v)))).map
        Prod.fst).Sublist (l.map Prod.fst) := by
  induction l with
  | nil => simp
  | cons f tl ih =>
      obtain ⟨i, d⟩ := f
      cases d
      · simpa [List.filterMap_cons] using ih.cons _
      · simpa [List.filterMap_cons] using ih

/-- Claim C1: for a module with `net` in `{in, full}`, when the step delivers
exactly one frame per peer of `in_ids` (the sources of the incoming stream
are a permutation of `in_ids`, which is duplicate-free as the key list of a
Python dictionary), a normal return of `_sync` leaves the inbound buffer
holding exactly the non-`None` deliveries in arrival order: one entry per
peer that sent a non-`None` payload, no duplicate sources, no sources outside
`in_ids`, and no `None` payloads (the buffer's payload type already excludes
them). -/
theorem sync_inbound_buffer (m : BaseModule) (incoming : List Frame)
    (m' : BaseModule) (rest : List Frame)
    (hnet : m.net = NetMode.inp ∨ m.net = NetMode.full)
    (hkeys : m.in_ids.Nodup)
    (hperm : (incoming.map Prod.fst).Perm m.in_ids)
    (h : (m.sync incoming).2 = .ok (m', rest)) :
    m'.in_data =
      incoming.filterMap (fun f => f.2.map (fun v => (f.1, v))) ∧
    (m'.in_data.map Prod.fst).Nodup ∧
    (∀ e ∈ m'.in_data, e.1 ∈ m.in_ids) ∧
    (∀ i v, (i, some v) ∈ incoming → (i, v) ∈ m'.in_data) := by
  have hrl := recvLoop_perm incoming m.in_ids [] hperm
  have hdata : m'.in_data =
      incoming.filterMap (fun f => f.2.map (fun v => (f.1, v))) := by
    rcases hsp : m.sendPhase with ⟨sent, r⟩
    cases hm : m.net <;> simp [hm] at hnet <;> cases r <;>
      simp [BaseModule.sync, hm, hsp, hrl] at h <;>
      (obtain ⟨h1, h2⟩ := h; subst h1; simp)
  refine ⟨hdata, ?_, ?_, ?_⟩
  · have hnd : (incoming.map Prod.fst).Nodup := hperm.nodup_iff.mpr hkeys
    rw [hdata]
    exact hnd.sublist (filterMap_fst_sublist incoming)
  · intro e he
    rw [hdata] at he
    obtain ⟨f, hf, hg⟩ := List.mem_filterMap.mp he
    obtain ⟨i, d⟩ := f
    cases d with
    | none => simp at hg
    | some v =>
        simp at hg
        have : e.1 = i := by rw [← hg]
        rw [this]
        exact hperm.subset (List.mem_map_of_mem Prod.fst hf)
  · intro i v hv
    rw [hdata]
    exact List.mem_filterMap.mpr ⟨(i, some v), hv, rfl⟩

theorem sync_inbound_buffer_check :
    ({ modFix ("m") NetMode.inp [("a", conn0), ("b", conn0)] [] [] with
        in_data := [("b", "x")] } : BaseModule).in_data =
      [("b", "x")] ∧
    ((([("b", "x")] : List (ModuleId × Data)).map Prod.fst).Nodup) := by
  refine ⟨?_, by decide⟩
  exact (sync_inbound_buffer
    (modFix ("m") NetMode.inp [("a", conn0), ("b", conn0)] [] [])
    [("b", some ("x")), ("a", Option.none)] _ []
    (Or.inl rfl) (by decide) (by decide) (by decide)).1

theorem acceptFrame_routing_table (b : Broker) (i o : ModuleId)
    (d : Option Data) :
    (b.acceptFrame i o d).routing_table = b.routing_table := by
  unfold Broker.acceptFrame
  split <;> rfl

theorem dataHandler_routing_table (b : Broker) (i o : ModuleId)
    (d : Option Data) :
    (b.dataHandler i o d).1.routing_table = b.routing_table := by
  unfold Broker.dataHandler Broker.flushRound
  split <;> simp [acceptFrame_routing_table]

theorem runFrames_routing_table
    (fs : List (ModuleId × ModuleId × Option Data)) :
    ∀ b : Broker, (b.runFrames fs).routing_table = b.routing_table := by
  induction fs with
  | nil => intro b; rfl
  | cons f tl ih =>
      intro b
      show ((b.dataHandler f.1 f.2.1 f.2.2).1.runFrames tl).routing_table = _
      rw [ih, dataHandler_routing_table]

/-- The reachable-state invariant of the broker: `recv_coords_list` can only
be empty when the routing table itself has no coordinates, in which case
nothing is ever buffered. -/
def Broker.inv (b : Broker) : Prop :=
  b.recv_coords_list = [] →
    (b.data_to_route = [] ∧ b.routing_table.coords = [])

theorem inv_start (pd pc : Nat) (rt : RoutingTable) :
    (Broker.start pd pc rt).inv :=
  fun h => ⟨rfl, h⟩

theorem inv_dataHandler (b : Broker) (i o : ModuleId) (d : Option Data) :
    (b.dataHandler i o d).1.inv := by
  unfold Broker.dataHandler Broker.flushRound
  split
  · intro h
    refine ⟨rfl, ?_⟩
    simpa [acceptFrame_routing_table] using h
  · intro h
    exact absurd h (by assumption)

theorem inv_runFrames (fs : List (ModuleId × ModuleId × Option Data)) :
    ∀ b : Broker, b.inv → (b.runFrames fs).inv := by
  induction fs with
  | nil => intro b hb; exact hb
  | cons f tl ih =>
      intro b _
      exact ih _ (inv_dataHandler b f.1 f.2.1 f.2.2)

/-- Claim C3: along any sequence of well-formed data frames starting from a
freshly constructed broker, the data handler (i) emits nothing as long as the
awaited set `recv_coords_list` is still non-empty after the frame is taken
in, (ii) on the frame that empties the awaited set, emits the buffered
`pending` triples in insertion order and resets `recv_coords_list` to
`routing_table.coords` and `data_to_route` to empty, and (iii) leaves the
state and the emissions untouched for a frame whose `(src, dst)` pair is not
currently awaited. -/
theorem broker_data_handler_round (rt : RoutingTable) (pd pc : Nat)
    (frames : List (ModuleId × ModuleId × Option Data))
    (i o : ModuleId) (d : Option Data) :
    ((((Broker.start pd pc rt).runFrames frames).acceptFrame i o
        d).recv_coords_list ≠ [] →
      ((Broker.start pd pc rt).runFrames frames).dataHandler i o d =
        (((Broker.start pd pc rt).runFrames frames).acceptFrame i o d,
         [])) ∧
    ((((Broker.start pd pc rt).runFrames frames).acceptFrame i o
        d).recv_coords_list = [] →
      (((Broker.start pd pc rt).runFrames frames).dataHandler i o d).2 =
        (((Broker.start pd pc rt).runFrames frames).acceptFrame i o
            d).data_to_route.map (fun x => (x.2.1, (x.1, x.2.2))) ∧
      (((Broker.start pd pc rt).runFrames frames).dataHandler i o
          d).1.recv_coords_list = rt.coords ∧
      (((Broker.start pd pc rt).runFrames frames).dataHandler i o
          d).1.data_to_route = []) ∧
    ((i, o) ∉
        ((Broker.start pd pc rt).runFrames frames).recv_coords_list →
      ((Broker.start pd pc rt).runFrames frames).dataHandler i o d =
        ((Broker.start pd pc rt).runFrames frames, [])) := by
  refine ⟨?_, ?_, ?_⟩
  · intro h
    unfold Broker.dataHandler Broker.flushRound
    rw [if_neg h]
  · intro h
    have hrt : (((Broker.start pd pc rt).runFrames frames).acceptFrame i o
        d).routing_table = rt := by
      rw [acceptFrame_routing_table, runFrames_routing_table]
      rfl
    unfold Broker.dataHandler Broker.flushRound
    rw [if_pos h]
    exact ⟨rfl, by simp [hrt], rfl⟩
  · intro h
    have hmid : ((Broker.start pd pc rt).runFrames frames).acceptFrame i o
        d = (Broker.start pd pc rt).runFrames frames := by
      unfold Broker.acceptFrame
      rw [if_neg h]
    have hinv : ((Broker.start pd pc rt).runFrames frames).inv :=
      inv_runFrames frames _ (inv_start pd pc rt)
    unfold Broker.dataHandler Broker.flushRound
    rw [hmid]
    by_cases hc :
        ((Broker.start pd pc rt).runFrames frames).recv_coords_list = []
    · obtain ⟨h1, h2⟩ := hinv hc
      rw [if_pos hc]
      rcases hb : (Broker.start pd pc rt).runFrames frames with
        ⟨p, q, rtb, dtr, rcl⟩
      rw [hb] at h1 h2 hc
      dsimp only at h1 h2 hc
      subst h1
      subst hc
      simp [h2]
    · rw [if_neg hc]

theorem broker_data_handler_round_check :
    (Broker.start 5000 5001 { coords := [("a", "b")] }).dataHandler
        "x" "y" Option.none =
      (Broker.start 5000 5001 { coords := [("a", "b")] }, []) :=
  (broker_data_handler_round { coords := [("a", "b")] } 5000 5001 []
      "x" "y" Option.none).2.2 (by decide)

/-- Claim C10: constructing a `Broker` without a routing table (the default
`routing_table=None`) fails for every choice of ports: either the equal-port
`ValueError` fires first, or the initializer's read of
`routing_table.coords` dereferences `None` and raises `AttributeError`.  A
broker state therefore only ever comes out of a construction that was given a
routing table. -/
theorem broker_init_none_always_fails (pd pc : Nat) :
    ∃ e, Broker.init pd pc Option.none = .error e := by
  unfold Broker.init
  split
  · exact ⟨_, rfl⟩
  · exact ⟨_, rfl⟩

/-- Claim C4 (code bug witness): `BaseConnectivity(2, 3)` has shape `(2, 3)`,
but `transpose()` builds its result as `BaseConnectivity(N_dest, N_dest)`
(line 712), so both the single and the double transpose have shape `(3, 3)`;
`transpose().transpose()` therefore does not restore the original shape, and
in particular is not the original object, contradicting the method's own
docstring ("source and destination LPUs flipped"). -/
theorem transpose_transpose_shape_bug :
    Except.map BaseConnectivity.shape (BaseConnectivity.init 7 2 3 1) =
      .ok (2, 3) ∧
    Except.map BaseConnectivity.shape
      ((BaseConnectivity.init 7 2 3 1).bind BaseConnectivity.transpose) =
      .ok (3, 3) ∧
    Except.map BaseConnectivity.shape
      (((BaseConnectivity.init 7 2 3 1).bind BaseConnectivity.transpose).bind
        BaseConnectivity.transpose) = .ok (3, 3) ∧
    ((BaseConnectivity.init 7 2 3 1).bind BaseConnectivity.transpose).bind
        BaseConnectivity.transpose ≠ BaseConnectivity.init 7 2 3 1 := by
  refine ⟨rfl, rfl, rfl, ?_⟩
  decide

theorem add_conn_conn_out (m : BaseModule) (c : BaseConnectivity)
    (p : ModuleId) :
    m.add_conn (.conn c) "out" p =
      .ok { m with conn_out := dictSet m.conn_out p c } := by
  simp [BaseModule.add_conn]

theorem add_conn_conn_in (m : BaseModule) (c : BaseConnectivity)
    (p : ModuleId) :
    m.add_conn (.conn c) "in" p =
      .ok { m with conn_in := dictSet m.conn_in p c } := by
  simp [BaseModule.add_conn]

/-- Claim C8: `add_conn` fails when `conn` is not a `BaseConnectivity`
(Python raises `ValueError('invalid connectivity object')`) and when the
direction is not one of the two keys `'in'`/`'out'` of `conn_dict` (the
subscript `self.conn_dict[conn_type]` raises `KeyError`); both are
synchronous failures of the offending call, which is what the spec's
`InvalidArgument` kind denotes.  With a connectivity object and a recognized
direction, the object is stored in the chosen per-direction dictionary under
the peer ID. -/
theorem add_conn_validates_and_stores (m : BaseModule) (conn : PyVal)
    (conn_type : String) (peer : ModuleId) :
    ((conn = PyVal.notConn ∨ (conn_type ≠ "in" ∧ conn_type ≠ "out")) →
      ∃ e, m.add_conn conn conn_type peer = .error e) ∧
    (∀ c, conn = PyVal.conn c →
      (conn_type = "in" →
        m.add_conn conn conn_type peer =
          .ok { m with conn_in := dictSet m.conn_in peer c }) ∧
      (conn_type = "out" →
        m.add_conn conn conn_type peer =
          .ok { m with conn_out := dictSet m.conn_out peer c })) := by
  constructor
  · intro h
    cases conn with
    | notConn => exact ⟨_, rfl⟩
    | conn c =>
        rcases h with h | ⟨h1, h2⟩
        · exact absurd h (by simp)
        · exact ⟨.keyError, by simp [BaseModule.add_conn, h1, h2]⟩
  · intro c hc
    subst hc
    exact ⟨fun h => h ▸ add_conn_conn_in m c peer,
           fun h => h ▸ add_conn_conn_out m c peer⟩

theorem add_conn_validates_and_stores_check :
    ∃ e, (modFix ("m") NetMode.none [] [] []).add_conn PyVal.notConn ("in")
        "p" = .error e :=
  (add_conn_validates_and_stores (modFix ("m") NetMode.none [] [] [])
      PyVal.notConn ("in") "p").1 (Or.inl rfl)

theorem transpose_ok_of_N_dest_ne_zero (c : BaseConnectivity)
    (hc : c.N_dest ≠ 0) : ∃ t, c.transpose = .ok t := by
  unfold BaseConnectivity.transpose BaseConnectivity.init
  rw [if_neg hc, if_neg hc, if_neg (by decide : ¬(1 : Nat) = 0)]
  exact ⟨_, rfl⟩

theorem connect_plus_eqn (s : ConnectState) (conn t : BaseConnectivity)
    (htc : conn.transpose = .ok t) :
    connect s conn ("+") = .ok
      { rt := rtSet s.rt (s.src.id, s.dst.id),
        src := { s.src with
                   net := promoteTx s.src.net,
                   conn_out := dictSet s.src.conn_out s.dst.id conn },
        dst := { s.dst with
                   net := promoteRx s.dst.net,
                   conn_in := dictSet s.dst.conn_in s.src.id t },
        mod_ids := (registerAll s conn).mod_ids,
        conn_ids := (registerAll s conn).conn_ids } := by
  unfold connect
  rw [htc]
  rfl

theorem connect_minus_eqn (s : ConnectState) (conn t : BaseConnectivity)
    (htc : conn.transpose = .ok t) :
    connect s conn ("-") = .ok
      { rt := rtSet s.rt (s.dst.id, s.src.id),
        src := { s.src with
                   net := promoteRx s.src.net,
                   conn_in := dictSet s.src.conn_in s.dst.id conn },
        dst := { s.dst with
                   net := promoteTx s.dst.net,
                   conn_out := dictSet s.dst.conn_out s.src.id t },
        mod_ids := (registerAll s conn).mod_ids,
        conn_ids := (registerAll s conn).conn_ids } := by
  unfold connect
  rw [htc]
  rfl

theorem connect_eq_eqn (s : ConnectState) (conn t : BaseConnectivity)
    (htc : conn.transpose = .ok t) :
    connect s conn ("=") = .ok
      { rt := rtSet (rtSet s.rt (s.src.id, s.dst.id)) (s.dst.id, s.src.id),
        src := { s.src with
                   net := NetMode.full,
                   conn_out := dictSet s.src.conn_out s.dst.id conn,
                   conn_in := dictSet s.src.conn_in s.dst.id conn },
        dst := { s.dst with
                   net := NetMode.full,
                   conn_in := dictSet s.dst.conn_in s.src.id t,
                   conn_out := dictSet s.dst.conn_out s.src.id t },
        mod_ids := (registerAll s conn).mod_ids,
        conn_ids := (registerAll s conn).conn_ids } := by
  unfold connect
  rw [htc]
  rfl

theorem connect_plus_err (s : ConnectState) (conn : BaseConnectivity)
    (e : Err) (htc : conn.transpose = .error e) :
    connect s conn ("+") = .error e := by
  unfold connect
  rw [htc]
  rfl

theorem connect_minus_err (s : ConnectState) (conn : BaseConnectivity)
    (e : Err) (htc : conn.transpose = .error e) :
    connect s conn ("-") = .error e := by
  unfold connect
  rw [htc]
  rfl

theorem connect_eq_err (s : ConnectState) (conn : BaseConnectivity)
    (e : Err) (htc : conn.transpose = .error e) :
    connect s conn ("=") = .error e := by
  unfold connect
  rw [htc]
  rfl

theorem connect_other_err (s : ConnectState) (conn : BaseConnectivity)
    (dir : String) (h1 : dir ≠ "+") (h2 : dir ≠ "-") (h3 : dir ≠ "=") :
    connect s conn dir =
      .error (.valueError ("unrecognized connectivity direction")) := by
  unfold connect
  rw [if_neg h1, if_neg h2, if_neg h3]

theorem extNetLe_refl (n : NetMode) : extNetLe n n = true := by
  cases n <;> rfl

theorem extNetLe_trans (a b c : NetMode) (h1 : extNetLe a b = true)
    (h2 : extNetLe b c = true) : extNetLe a c = true := by
  revert h1 h2
  cases a <;> cases b <;> cases c <;> decide

theorem extNetLe_promoteTx (n : NetMode) : extNetLe n (promoteTx n) = true := by
  cases n <;> rfl

theorem extNetLe_promoteRx (n : NetMode) : extNetLe n (promoteRx n) = true := by
  cases n <;> rfl

theorem extNetLe_full (n : NetMode) : extNetLe n NetMode.full = true := by
  cases n <;> rfl

theorem connect_net_step (s : ConnectState) (conn : BaseConnectivity)
    (dir : String) (s' : ConnectState) (h : connect s conn dir = .ok s') :
    extNetLe s.src.net s'.src.net = true ∧
    extNetLe s.dst.net s'.dst.net = true := by
  by_cases h1 : dir = "+"
  · subst h1
    cases htc : conn.transpose with
    | error e => rw [connect_plus_err s conn e htc] at h; cases h
    | ok t =>
        rw [connect_plus_eqn s conn t htc] at h
        obtain rfl : _ = s' := by injection h
        exact ⟨extNetLe_promoteTx _, extNetLe_promoteRx _⟩
  by_cases h2 : dir = "-"
  · subst h2
    cases htc : conn.transpose with
    | error e => rw [connect_minus_err s conn e htc] at h; cases h
    | ok t =>
        rw [connect_minus_eqn s conn t htc] at h
        obtain rfl : _ = s' := by injection h
        exact ⟨extNetLe_promoteRx _, extNetLe_promoteTx _⟩
  by_cases h3 : dir = "="
  · subst h3
    cases htc : conn.transpose with
    | error e => rw [connect_eq_err s conn e htc] at h; cases h
    | ok t =>
        rw [connect_eq_eqn s conn t htc] at h
        obtain rfl : _ = s' := by injection h
        exact ⟨extNetLe_full _, extNetLe_full _⟩
  rw [connect_other_err s conn dir h1 h2 h3] at h
  cases h

/-- Claim C6 (amended): over any finite sequence of `connect` calls that
returns normally, each module's `net` mode only moves upward in the lattice
whose arrows are `none -> in | out | ctrl`, `in -> full`, `out -> full`
*and* `ctrl -> full` (i.e. the claimed lattice completed with `full` as top
element); in particular no call ever demotes a module.  The extra arrow is
needed because `connect(..., '=')` sets both modules to `full`
unconditionally, including from `ctrl` (lines 855-856). -/
theorem connect_seq_never_demotes (s : ConnectState)
    (calls : List (BaseConnectivity × String)) (s' : ConnectState)
    (h : connectSeq s calls = .ok s') :
    extNetLe s.src.net s'.src.net = true ∧
    extNetLe s.dst.net s'.dst.net = true := by
  induction calls generalizing s with
  | nil =>
      obtain rfl : s = s' := by
        simpa [connectSeq] using h
      exact ⟨extNetLe_refl _, extNetLe_refl _⟩
  | cons cd tl ih =>
      rw [connectSeq] at h
      cases hc : connect s cd.1 cd.2 with
      | error e => rw [hc] at h; cases h
      | ok s1 =>
          rw [hc] at h
          simp only [Except.bind] at h
          have hstep := connect_net_step s cd.1 cd.2 s1 hc
          have hrest := ih s1 h
          exact ⟨extNetLe_trans _ _ _ hstep.1 hrest.1,
                 extNetLe_trans _ _ _ hstep.2 hrest.2⟩

theorem connect_seq_never_demotes_check :
    extNetLe (stFix NetMode.none NetMode.none).src.net
      stFixDone.src.net = true :=
  (connect_seq_never_demotes (stFix NetMode.none NetMode.none)
      [(conn0, "=")] stFixDone (by decide)).1

/-- Claim C6 (counterexample to the claim as stated): a single
`connect(..., '=')` call moves a module whose `net` is `ctrl` to `full`, a
transition that is not in the reflexive-transitive closure of the claimed
arrows `none -> in | out | ctrl`, `in -> full`, `out -> full`. -/
theorem connect_ctrl_to_full_violates_claimed_lattice :
    Except.map (fun s => s.src.net)
        (connectSeq (stFix NetMode.ctrl NetMode.none) [(conn0, "=")]) =
      .ok NetMode.full ∧
    (stFix NetMode.ctrl NetMode.none).src.net = NetMode.ctrl ∧
    claimedNetLe NetMode.ctrl NetMode.full = false := by
  refine ⟨by decide, rfl, rfl⟩

theorem registerAll_src_mem (s : ConnectState) (conn : BaseConnectivity) :
    s.src.id ∈ (registerAll s conn).mod_ids := by
  unfold registerAll
  dsimp only
  split_ifs <;> simp_all

theorem registerAll_dst_mem (s : ConnectState) (conn : BaseConnectivity) :
    s.dst.id ∈ (registerAll s conn).mod_ids := by
  unfold registerAll
  dsimp only
  split_ifs <;> simp_all

theorem registerAll_conn_mem (s : ConnectState) (conn : BaseConnectivity) :
    conn.id ∈ (registerAll s conn).conn_ids := by
  unfold registerAll
  dsimp only
  split_ifs <;> simp_all

theorem registerAll_noop (t : ConnectState) (conn : BaseConnectivity)
    (h1 : t.src.id ∈ t.mod_ids) (h2 : t.dst.id ∈ t.mod_ids)
    (h3 : conn.id ∈ t.conn_ids) : registerAll t conn = t := by
  unfold registerAll
  dsimp only
  rw [if_pos h1, if_pos h2, if_pos h3]

theorem connect_minus_after (s1 : ConnectState) (conn t : BaseConnectivity)
    (htc : conn.transpose = .ok t)
    (hm1 : s1.src.id ∈ s1.mod_ids) (hm2 : s1.dst.id ∈ s1.mod_ids)
    (hm3 : conn.id ∈ s1.conn_ids) :
    connect s1 conn ("-") = .ok
      { rt := rtSet s1.rt (s1.dst.id, s1.src.id),
        src := { s1.src with
                   net := promoteRx s1.src.net,
                   conn_in := dictSet s1.src.conn_in s1.dst.id conn },
        dst := { s1.dst with
                   net := promoteTx s1.dst.net,
                   conn_out := dictSet s1.dst.conn_out s1.src.id t },
        mod_ids := s1.mod_ids,
        conn_ids := s1.conn_ids } := by
  rw [connect_minus_eqn s1 conn t htc, registerAll_noop s1 conn hm1 hm2 hm3]

/-- Claim C5 (amended): `connect(src, dst, c, '=')` coincides with
`connect(src, dst, c, '+')` followed by `connect(src, dst, c, '-')` — same
routing-table edits, same registrations, same `net` modes, same per-direction
wiring on both modules — provided neither module's initial `net` mode is
`ctrl` (and the connectivity object is well formed, `N_dest ≠ 0`, so that
`conn.T` succeeds).  A `ctrl` module breaks the equivalence: `'='` forces it
to `full` while `'+'` and `'-'` leave `ctrl` untouched. -/
theorem connect_eq_equals_plus_then_minus (s : ConnectState)
    (conn : BaseConnectivity)
    (hsrc : s.src.net ≠ NetMode.ctrl) (hdst : s.dst.net ≠ NetMode.ctrl)
    (hc : conn.N_dest ≠ 0) :
    connect s conn ("=") =
      (connect s conn ("+")).bind (fun s1 => connect s1 conn ("-")) := by
  obtain ⟨t, htc⟩ := transpose_ok_of_N_dest_ne_zero conn hc
  have hps : promoteRx (promoteTx s.src.net) = NetMode.full := by
    cases hn : s.src.net <;> simp_all [promoteTx, promoteRx]
  have hpd : promoteTx (promoteRx s.dst.net) = NetMode.full := by
    cases hn : s.dst.net <;> simp_all [promoteTx, promoteRx]
  rw [connect_eq_eqn s conn t htc, connect_plus_eqn s conn t htc]
  simp only [Except.bind]
  rw [connect_minus_after _ conn t htc
    (by dsimp only; exact registerAll_src_mem s conn)
    (by dsimp only; exact registerAll_dst_mem s conn)
    (by dsimp only; exact registerAll_conn_mem s conn)]
  dsimp only
  rw [hps, hpd]

theorem connect_eq_equals_plus_then_minus_check :
    connect (stFix NetMode.none NetMode.none) conn0 ("=") =
      (connect (stFix NetMode.none NetMode.none) conn0 ("+")).bind
        (fun s1 => connect s1 conn0 ("-")) :=
  connect_eq_equals_plus_then_minus (stFix NetMode.none NetMode.none) conn0
    (by decide) (by decide) (by decide)

/-- Claim C5 (counterexample to the claim as stated): with the source module
initially in `ctrl` mode, `connect(src, dst, c, '=')` sets `src.net` to
`full` (lines 855-856), while `connect('+')` followed by `connect('-')`
leaves it at `ctrl` (no promotion branch mentions `ctrl`), so the two call
shapes produce observably different states. -/
theorem connect_eq_differs_from_plus_minus_on_ctrl :
    Except.map (fun s => s.src.net)
        (connect (stFix NetMode.ctrl NetMode.none) conn0 ("=")) =
      .ok NetMode.full ∧
    Except.map (fun s => s.src.net)
        ((connect (stFix NetMode.ctrl NetMode.none) conn0 ("+")).bind
          (fun s1 => connect s1 conn0 ("-"))) = .ok NetMode.ctrl ∧
    connect (stFix NetMode.ctrl NetMode.none) conn0 ("=") ≠
      (connect (stFix NetMode.ctrl NetMode.none) conn0 ("+")).bind
        (fun s1 => connect s1 conn0 ("-")) := by
  refine ⟨by decide, by decide, by decide⟩

end Neurokernel
